import Mathlib

/-!
Verification of the event filtering and dispatch loop of
`relayer-cli/src/commands/listen.rs`.

The embedding translates the Rust source into Lean:
* `EventFilter`, `EventFilter.matches`, `EventFilter.display`,
  `EventFilter.fromStr` mirror the enum and its impls.
* `event_match` mirrors the free function `event_match`.
* `effectiveFilters` mirrors the defaulting step in `ListenCmd::cmd`
  (an empty `--events` list becomes `[Tx, NewBlock]`).
* `processBatch`, `listenLoop`, `listenRun` mirror the body of `listen`:
  the dispatch loop drains a stream of batch results, filters each
  successful batch, reports height / surviving events / a blank line,
  reports delivery errors, and returns `Ok(())` when the stream ends.

The `IbcEvent` and `EventBatch` types come from the `ibc` and
`ibc-relayer` crates, which are outside the sources given here; they are
modelled from the spec (see their doc comments).
-/

/-- Modelled from the spec: the `IbcEvent` enum of the `ibc` crate is not
among the given sources.  Per the spec's data model, an Event is a closed
tagged union that at minimum distinguishes the new-block variant, the
chain-error variant, and everything else (treated as transaction-related);
the extra `other` variants are indexed by a tag standing for the many
transaction-related variants of the real enum. -/
inductive IbcEvent where
  | NewBlock (height : Nat)
  | ChainError (msg : String)
  | Other (tag : Nat)
deriving DecidableEq, Repr

/-- Mirrors `matches!(event, IbcEvent::NewBlock(_))`. -/
def isNewBlock : IbcEvent → Bool
  | IbcEvent.NewBlock _ => true
  | _ => false

/-- Mirrors `matches!(event, IbcEvent::ChainError(_))`. -/
def isChainError : IbcEvent → Bool
  | IbcEvent.ChainError _ => true
  | _ => false

/-- The `EventFilter` enum of `listen.rs`. -/
inductive EventFilter where
  | NewBlock
  | Tx
deriving DecidableEq, Repr, Fintype

/-- `EventFilter::matches` from `listen.rs`:
`NewBlock` matches exactly the new-block variant; `Tx` matches anything
that is neither the new-block variant nor the chain-error variant. -/
def EventFilter.matches (f : EventFilter) (event : IbcEvent) : Bool :=
  match f with
  | EventFilter.NewBlock => isNewBlock event
  | EventFilter.Tx => !(isNewBlock event || isChainError event)

/-- The `Display` impl for `EventFilter`. -/
def EventFilter.display : EventFilter → String
  | EventFilter.NewBlock => "NewBlock"
  | EventFilter.Tx => "Tx"

/-- The `FromStr` impl for `EventFilter`: case-sensitive match on the two
valid tokens, any other token yields the formatted error carrying it. -/
def EventFilter.fromStr (s : String) : Except String EventFilter :=
  if s = "NewBlock" then Except.ok EventFilter.NewBlock
  else if s = "Tx" then Except.ok EventFilter.Tx
  else Except.error ("unrecognized event type: " ++ s)

/-- The free function `event_match` from `listen.rs`:
`filters.iter().any(|f| f.matches(event))`. -/
def event_match (event : IbcEvent) (filters : List EventFilter) : Bool :=
  filters.any (fun f => f.matches event)

/-- The defaulting step of `ListenCmd::cmd`: an empty `--events` list is
replaced, once before the loop starts, by `[EventFilter::Tx,
EventFilter::NewBlock]`. -/
def effectiveFilters (events : List EventFilter) : List EventFilter :=
  if events.isEmpty then [EventFilter.Tx, EventFilter.NewBlock] else events

/-- Modelled from the spec: the `EventBatch` struct of `ibc-relayer`'s
event monitor is not among the given sources.  Per the spec, a successful
Batch carries a block height and an ordered sequence of Events. -/
structure EventBatch where
  height : Nat
  events : List IbcEvent
deriving DecidableEq, Repr

/-- One reported line of the dispatch loop: the batch-height header, an
event line, the blank separator, or a batch-delivery error line. -/
inductive Output where
  | height (h : Nat)
  | event (e : IbcEvent)
  | blank
  | err (msg : String)
deriving DecidableEq, Repr

/-- The `Ok(batch)` arm of the loop body in `listen`: keep the events that
match the filters; if none survive, `continue` with no output; otherwise
report the batch height, each surviving event in order, and a blank line. -/
def processBatch (filters : List EventFilter) (batch : EventBatch) : List Output :=
  let matching_events := batch.events.filter (fun e => event_match e filters)
  if matching_events.isEmpty then []
  else Output.height batch.height :: (matching_events.map Output.event ++ [Output.blank])

/-- The `while let Ok(event_batch) = rx.recv()` loop of `listen`: the
stream is the sequence of values `recv` yields before the channel closes;
each element is either a successful batch or a delivery error, which is
reported and skipped. -/
def listenLoop (filters : List EventFilter) : List (Except String EventBatch) → List Output
  | [] => []
  | Except.ok batch :: rest => processBatch filters batch ++ listenLoop filters rest
  | Except.error e :: rest => Output.err e :: listenLoop filters rest

/-- The dispatch-loop portion of `listen`: after the stream is drained the
function falls through to `Ok(())`, so the run always yields a success
result carrying the reported output. -/
def listenRun (filters : List EventFilter) (stream : List (Except String EventBatch)) :
    Except String (List Output) :=
  Except.ok (listenLoop filters stream)

/-- C1: every Event falls in exactly one of the three classes — new-block
(matched by `NewBlock` only), chain-error (matched by neither filter), or
any other variant (matched by `Tx` only).  Each disjunct pins the two
variant flags to a distinct combination, so at most one can hold. -/
theorem eventFilter_partition (e : IbcEvent) :
    (isNewBlock e = true ∧ isChainError e = false ∧
      EventFilter.NewBlock.matches e = true ∧ EventFilter.Tx.matches e = false)
    ∨ (isNewBlock e = false ∧ isChainError e = true ∧
      EventFilter.NewBlock.matches e = false ∧ EventFilter.Tx.matches e = false)
    ∨ (isNewBlock e = false ∧ isChainError e = false ∧
      EventFilter.NewBlock.matches e = false ∧ EventFilter.Tx.matches e = true) := by
  cases e <;> simp [EventFilter.matches, isNewBlock, isChainError]

/-- C2 counterexample: the raw `event_match` on the empty filter list does
NOT behave like the default set — on a new-block event it returns `false`
while the default set returns `true`. -/
theorem event_match_empty_ne_default :
    ¬ (event_match (IbcEvent.NewBlock 0) [] =
       event_match (IbcEvent.NewBlock 0) [EventFilter.NewBlock, EventFilter.Tx]) := by
  decide

/-- C2 amended: the defaulting is performed once at session setup by
`ListenCmd::cmd`, not inside `event_match`; evaluating with the effective
filter list obtained from an empty user selection behaves identically to
evaluating with `[MatchNewBlock, MatchTransaction]`. -/
theorem event_match_effective_default (e : IbcEvent) :
    event_match e (effectiveFilters []) =
      event_match e [EventFilter.NewBlock, EventFilter.Tx] := by
  cases e <;> rfl

/-- C3: for a successful batch, if no event matches the filters the loop
emits nothing for it; otherwise it emits the batch height first, then
exactly the surviving events in their original relative order (followed by
the blank separator line); and on the spec's three-event example with the
middle event failing, the survivors are the first and third, in order. -/
theorem processBatch_output (filters : List EventFilter) (batch : EventBatch) :
    ((∀ e ∈ batch.events, event_match e filters = false) →
      processBatch filters batch = [])
    ∧ ((∃ e ∈ batch.events, event_match e filters = true) →
      processBatch filters batch =
        Output.height batch.height ::
          ((batch.events.filter (fun e => event_match e filters)).map Output.event
            ++ [Output.blank]))
    ∧ (∀ h e1 e2 e3, event_match e1 filters = true → event_match e2 filters = false →
        event_match e3 filters = true →
        processBatch filters (EventBatch.mk h [e1, e2, e3]) =
          [Output.height h, Output.event e1, Output.event e3, Output.blank]) := by
  refine ⟨?_, ?_, ?_⟩
  · intro hnone
    have hfilt : batch.events.filter (fun e => event_match e filters) = [] := by
      simp only [List.filter_eq_nil_iff]
      intro e he
      simp [hnone e he]
    simp [processBatch, hfilt]
  · rintro ⟨e, he, hm⟩
    have hmem : e ∈ batch.events.filter (fun e => event_match e filters) := by
      simp [List.mem_filter, he, hm]
    have hne : ¬ (batch.events.filter (fun e => event_match e filters)).isEmpty := by
      intro hemp
      rw [List.isEmpty_iff] at hemp
      simp [hemp] at hmem
    simp [processBatch, hne]
  · intro h e1 e2 e3 h1 h2 h3
    simp [processBatch, List.filter, h1, h2, h3]

/-- C3 witness: instantiating the batch-reporting theorem at a concrete
batch where a new-block event survives filtering. -/
theorem processBatch_output_witness :
    (∃ e ∈ [IbcEvent.NewBlock 1, IbcEvent.ChainError "boom"],
      event_match e [EventFilter.NewBlock] = true)
    ∧ processBatch [EventFilter.NewBlock]
        (EventBatch.mk 5 [IbcEvent.NewBlock 1, IbcEvent.ChainError "boom"]) =
      Output.height 5 ::
        (([IbcEvent.NewBlock 1, IbcEvent.ChainError "boom"].filter
            (fun e => event_match e [EventFilter.NewBlock])).map Output.event
          ++ [Output.blank]) :=
  ⟨by decide,
    (processBatch_output [EventFilter.NewBlock]
      (EventBatch.mk 5 [IbcEvent.NewBlock 1, IbcEvent.ChainError "boom"])).2.1 (by decide)⟩

/-- C4: a batch-level delivery error is reported and the loop continues
with the rest of the stream — it never terminates the loop — so on the
stream `[Ok b1, Err m, Ok b2]` the loop reports the output of both
successful batches, with the error line between them. -/
theorem listenLoop_error_resilient (filters : List EventFilter) :
    (∀ m rest, listenLoop filters (Except.error m :: rest) =
      Output.err m :: listenLoop filters rest)
    ∧ (∀ b1 m b2, listenLoop filters [Except.ok b1, Except.error m, Except.ok b2] =
      processBatch filters b1 ++ Output.err m :: processBatch filters b2) := by
  constructor
  · intro m rest
    rfl
  · intro b1 m b2
    simp [listenLoop]

/-- C5: `event_match e fs` is true exactly when `fs` is non-empty and some
member filter matches `e`; in particular it is false on the empty list. -/
theorem event_match_iff (e : IbcEvent) (fs : List EventFilter) :
    event_match e fs = true ↔ fs ≠ [] ∧ ∃ f ∈ fs, f.matches e = true := by
  constructor
  · intro h
    rw [event_match, List.any_eq_true] at h
    obtain ⟨f, hf, hm⟩ := h
    exact ⟨List.ne_nil_of_mem hf, f, hf, hm⟩
  · rintro ⟨-, f, hf, hm⟩
    rw [event_match, List.any_eq_true]
    exact ⟨f, hf, hm⟩

/-- C5 witness: the characterisation applied in both directions at
concrete inputs — a singleton list matching a new-block event, and the
empty list matching nothing. -/
theorem event_match_iff_witness :
    event_match (IbcEvent.NewBlock 0) [EventFilter.NewBlock] = true
    ∧ ¬ ([] : List EventFilter) ≠ [] :=
  ⟨(event_match_iff (IbcEvent.NewBlock 0) [EventFilter.NewBlock]).mpr
      ⟨by decide, EventFilter.NewBlock, by decide, by decide⟩,
    by decide⟩

/-- C6: the dispatch loop has the end of the stream as its only terminal
condition and then returns normally: on the empty (exhausted) stream it
reports nothing, and on every stream the run yields a success result. -/
theorem listenRun_terminates (filters : List EventFilter) :
    listenLoop filters [] = []
    ∧ ∀ stream, ∃ out, listenRun filters stream = Except.ok out := by
  exact ⟨rfl, fun stream => ⟨listenLoop filters stream, rfl⟩⟩

/-- C7: both valid filter tokens round-trip through parse then display. -/
theorem eventFilter_roundtrip :
    (EventFilter.fromStr "NewBlock").map EventFilter.display = Except.ok "NewBlock"
    ∧ (EventFilter.fromStr "Tx").map EventFilter.display = Except.ok "Tx" := by
  constructor <;> rfl

/-- C8: any token other than the two valid ones fails to parse, with an
error message carrying the offending token. -/
theorem eventFilter_fromStr_rejects (s : String)
    (h1 : s ≠ "NewBlock") (h2 : s ≠ "Tx") :
    EventFilter.fromStr s = Except.error ("unrecognized event type: " ++ s) := by
  simp [EventFilter.fromStr, h1, h2]

/-- C8 witness: the rejection theorem applied at the spec's example token
`TestFilter`. -/
theorem eventFilter_fromStr_rejects_witness :
    "TestFilter" ≠ "NewBlock" ∧ "TestFilter" ≠ "Tx" ∧
    EventFilter.fromStr "TestFilter" =
      Except.error ("unrecognized event type: " ++ "TestFilter") :=
  ⟨by decide, by decide,
    eventFilter_fromStr_rejects "TestFilter" (by decide) (by decide)⟩

/-- C9: `event_match` only depends on which filters are present, not on
their order or multiplicity: two filter lists with the same members give
the same result on every event. -/
theorem event_match_set_semantics (e : IbcEvent) (fs1 fs2 : List EventFilter)
    (h : ∀ f, f ∈ fs1 ↔ f ∈ fs2) :
    event_match e fs1 = event_match e fs2 := by
  rw [event_match, event_match, Bool.eq_iff_iff, List.any_eq_true, List.any_eq_true]
  constructor
  · rintro ⟨f, hf, hm⟩
    exact ⟨f, (h f).mp hf, hm⟩
  · rintro ⟨f, hf, hm⟩
    exact ⟨f, (h f).mpr hf, hm⟩

/-- C9 witness: the set-semantics theorem applied to the default list and
a reordered list with a duplicate. -/
theorem event_match_set_semantics_witness :
    (∀ f, f ∈ [EventFilter.Tx, EventFilter.NewBlock] ↔
      f ∈ [EventFilter.NewBlock, EventFilter.Tx, EventFilter.Tx])
    ∧ event_match (IbcEvent.Other 0) [EventFilter.Tx, EventFilter.NewBlock] =
      event_match (IbcEvent.Other 0) [EventFilter.NewBlock, EventFilter.Tx, EventFilter.Tx] :=
  ⟨by decide,
    event_match_set_semantics (IbcEvent.Other 0)
      [EventFilter.Tx, EventFilter.NewBlock]
      [EventFilter.NewBlock, EventFilter.Tx, EventFilter.Tx] (by decide)⟩

/-- C10: under the effective default filter list (empty user selection
resolved by `ListenCmd::cmd`), an event matches exactly when it is not the
chain-error variant. -/
theorem event_match_default_not_chainError (e : IbcEvent) :
    event_match e (effectiveFilters []) = !(isChainError e) := by
  cases e <;> rfl
